import Mathlib

set_option maxRecDepth 8000

/-!
Verification development for the recommendation pipeline in `src/main.py`.

The script queries a language model, parses its JSON answer with
`json.loads`, validates each entry against a required-key list, enriches
valid entries with an end-of-prior-month closing price obtained from a
market-data provider, serializes the result to a timestamped artifact file
and appends a `path: sha256-hexdigest` line to a ledger file.

The embedding below mirrors the Python source line by line:
Python values are a single inductive `PyVal` (arrays and objects carry
their own cons cells so that all functions are structurally recursive and
kernel-reducible); fallible Python operations return `Except PyErr`;
`json.loads`, `json.dumps` (default separators) and `json.dump(..., indent=2)`
are implemented from the `json` module's documented behaviour; SHA-256 is
implemented from FIPS 180-4 over byte lists with explicit `% 2^32`
arithmetic.  Python floats are modelled as exact rationals: the script
never performs float arithmetic, it only passes parsed decimal literals
and provider prices through unchanged, so an exact-decimal model is
faithful for every value the pipeline handles.
-/

/-- A Python runtime value as manipulated by `src/main.py`.  Arrays and
objects are encoded with their own cons constructors (instead of nested
`List`/assoc-list fields) so that recursion over values is structural. -/
inductive PyVal where
  | vstr (s : String)
  | vint (n : Int)
  | vfloat (q : Rat)
  | vbool (b : Bool)
  | vnone
  | varrNil
  | varrCons (hd : PyVal) (tl : PyVal)
  | vobjNil
  | vobjCons (key : String) (val : PyVal) (rest : PyVal)
  deriving DecidableEq, Repr

open PyVal

/-- Errors the script can raise: `TypeError` (iterating or membership-testing
a non-container, item assignment on a non-dict), `AttributeError`
(`.get` on a non-dict) and an uncaught exception from the market-data
provider (network/provider failure). -/
inductive PyErr where
  | typeError
  | attributeError
  | providerError
  deriving DecidableEq, Repr

/-- Convert a Lean list of values to a `PyVal` array. -/
def listToArr : List PyVal → PyVal
  | [] => varrNil
  | v :: vs => varrCons v (listToArr vs)

/-- Convert a `PyVal` array back to a Lean list (garbage tails end the list). -/
def arrToList : PyVal → List PyVal
  | varrCons v vs => v :: arrToList vs
  | _ => []

/-- Does a `PyVal` dict contain the given key (`key in d` for a dict)? -/
def objHasB : PyVal → String → Bool
  | vobjCons k _ r, key => k == key || objHasB r key
  | _, _ => false

/-- Python `d.get(key, default)` on a `PyVal` dict (total version, first match). -/
def objGetDB : PyVal → String → PyVal → PyVal
  | vobjCons k v r, key, d => if k == key then v else objGetDB r key d
  | _, _, d => d

/-- Python `d[key] = v` on a `PyVal` dict: replace the first occurrence in place,
otherwise append a new entry at the end (Python dict insertion order). -/
def objSetB : PyVal → String → PyVal → PyVal
  | vobjCons k v r, key, nv => if k == key then vobjCons k nv r else vobjCons k v (objSetB r key nv)
  | _, key, nv => vobjCons key nv vobjNil

/-- The keys of a `PyVal` dict, in insertion order. -/
def objKeys : PyVal → List String
  | vobjCons k _ r => k :: objKeys r
  | _ => []

/-- Is this value a Python dict? -/
def isDict : PyVal → Bool
  | vobjNil => true
  | vobjCons _ _ _ => true
  | _ => false

/-- Python truthiness (`if x:`): empty string/containers, `0`, `0.0`,
`False` and `None` are falsy, everything else is truthy. -/
def pyTruthy : PyVal → Bool
  | vstr s => !(s == "")
  | vint n => !(n == 0)
  | vfloat q => !(q == 0)
  | vbool b => b
  | vnone => false
  | varrNil => false
  | varrCons _ _ => true
  | vobjNil => false
  | vobjCons _ _ _ => true

/-- Does the first character list begin the second one? -/
def isPre : List Char → List Char → Bool
  | [], _ => true
  | _ :: _, [] => false
  | a :: as, b :: bs => a == b && isPre as bs

/-- Does `hay` contain `needle` as a contiguous sublist (`needle in hay`
for Python strings)? -/
def hasSub : List Char → List Char → Bool
  | hay, needle =>
    isPre needle hay ||
      match hay with
      | [] => false
      | _ :: t => hasSub t needle

/-- Python's `key in x` membership test.  Dicts test key membership,
strings test substring containment, lists test element equality (a string
compares equal only to an equal string); membership on a number, boolean
or `None` raises `TypeError`. -/
def pyContains : PyVal → String → Except PyErr Bool
  | vobjNil, _ => .ok false
  | vobjCons k _ r, key => if k == key then .ok true else pyContains r key
  | vstr s, key => .ok (hasSub s.data key.data)
  | varrNil, _ => .ok false
  | varrCons h t, key =>
    match h with
    | vstr s => if s == key then .ok true else pyContains t key
    | _ => pyContains t key
  | _, _ => .error .typeError

/-- The call `x.get(key, default)` with Python semantics: only dicts have `.get`;
on any other value it raises `AttributeError`. -/
def pyGet : PyVal → String → PyVal → Except PyErr PyVal
  | vobjNil, _, d => .ok d
  | vobjCons k v r, key, d => if k == key then .ok v else pyGet r key d
  | _, _, _ => .error .attributeError

/-- The assignment `x[key] = v` with Python semantics: dicts are updated in place
(first matching key keeps its position, a new key is appended); item
assignment on any other value raises `TypeError`. -/
def pySetItem : PyVal → String → PyVal → Except PyErr PyVal
  | vobjNil, key, nv => .ok (vobjCons key nv vobjNil)
  | vobjCons k v r, key, nv =>
    if k == key then .ok (vobjCons k nv r)
    else
      match pySetItem r key nv with
      | .ok r2 => .ok (vobjCons k v r2)
      | .error e => .error e
  | _, _, _ => .error .typeError

/-- Iteration `for x in v`: lists yield their elements, dicts their keys (as
strings), strings their characters (as one-character strings); iterating a
number, boolean or `None` raises `TypeError`. -/
def pyIter : PyVal → Except PyErr (List PyVal)
  | varrNil => .ok []
  | varrCons h t =>
    match pyIter t with
    | .ok l => .ok (h :: l)
    | .error e => .error e
  | vobjNil => .ok []
  | vobjCons k _ r =>
    match pyIter r with
    | .ok l => .ok (vstr k :: l)
    | .error e => .error e
  | vstr s => .ok (s.data.map (fun c => vstr (String.mk [c])))
  | _ => .error .typeError

/-- Lowercase hexadecimal digit (indices above 15 cannot arise from the
nibble arithmetic below). -/
def hexDig (n : Nat) : Char :=
  "0123456789abcdef".data.getD n '0'

/-- Two lowercase hex characters for one byte. -/
def hexByte (b : Nat) : List Char :=
  [hexDig (b / 16 % 16), hexDig (b % 16)]

/-- Four lowercase hex characters, as used in `\uXXXX` escapes. -/
def hex4 (n : Nat) : List Char :=
  [hexDig (n / 4096 % 16), hexDig (n / 256 % 16), hexDig (n / 16 % 16), hexDig (n % 16)]

/-- Escape one character the way `json.dumps` does with its default
`ensure_ascii=True`: the two-character escapes for quote, backslash and
control characters that have them, `\uXXXX` for other control characters
and for everything at or above 0x7f (astral characters become surrogate
pairs). -/
def escChar (c : Char) : List Char :=
  let n := c.toNat
  if c == '"' then ['\\', '"']
  else if c == '\\' then ['\\', '\\']
  else if c == '\n' then ['\\', 'n']
  else if c == '\t' then ['\\', 't']
  else if c == '\r' then ['\\', 'r']
  else if n == 8 then ['\\', 'b']
  else if n == 12 then ['\\', 'f']
  else if n < 32 || n >= 127 then
    if n < 65536 then '\\' :: 'u' :: hex4 n
    else
      let m := n - 65536
      ('\\' :: 'u' :: hex4 (55296 + m / 1024)) ++ ('\\' :: 'u' :: hex4 (56320 + m % 1024))
  else [c]

/-- The `json.dumps` rendering of a string (quotes plus escaping). -/
def quoteJson (s : String) : String :=
  String.mk ('"' :: (s.data.map escChar).flatten ++ ['"'])

/-- Decimal rendering of a Python float, exact for every float the script
handles: parsed JSON decimal literals and provider prices round-trip
through `repr` as their shortest decimal form, which for a value that is
exactly a decimal `m / 10^k` (in lowest terms with minimal `k`) is that
decimal expansion, with `.0` appended to integral values.  Rationals that
are not finite decimals cannot reach a serializer in this model; for
totality they render through the largest exponent tried. -/
def floatRepr (q : Rat) : String :=
  let k := ((List.range 40).find? (fun i => (q * (10 : Rat) ^ i).den == 1)).getD 39
  let n := (q * (10 : Rat) ^ k).num
  let sign : String := if n < 0 then "-" else ""
  let a := n.natAbs
  if k == 0 then sign ++ toString a ++ ".0"
  else
    let digits := toString a
    let digits := if digits.length ≤ k then String.mk (List.replicate (k + 1 - digits.length) '0') ++ digits else digits
    let ip := digits.take (digits.length - k)
    let fp := digits.drop (digits.length - k)
    sign ++ ip ++ "." ++ fp

/-- Python `json.dumps(v)` with the module defaults (`separators=(', ', ': ')`,
`ensure_ascii=True`, no indent), exactly the serialization hashed on
line 110 of `src/main.py`.  The second argument selects tail mode: `false`
renders a complete value, `true` renders the continuation of the
enclosing array/object (`, item` or `, "key": value`). -/
def dumpAux : PyVal → Bool → String
  | vstr s, _ => quoteJson s
  | vint n, _ => toString n
  | vfloat q, _ => floatRepr q
  | vbool b, _ => if b then "true" else "false"
  | vnone, _ => "null"
  | varrNil, false => "[]"
  | varrNil, true => ""
  | varrCons h t, false => "[" ++ dumpAux h false ++ dumpAux t true ++ "]"
  | varrCons h t, true => ", " ++ dumpAux h false ++ dumpAux t true
  | vobjNil, false => "\x7b\x7d"
  | vobjNil, true => ""
  | vobjCons k v r, false => "\x7b" ++ quoteJson k ++ ": " ++ dumpAux v false ++ dumpAux r true ++ "\x7d"
  | vobjCons k v r, true => ", " ++ quoteJson k ++ ": " ++ dumpAux v false ++ dumpAux r true

/-- Python `json.dumps(v)` with default separators — the byte sequence whose
SHA-256 the script records in the ledger. -/
def pyDumps (v : PyVal) : String :=
  dumpAux v false

/-- Exactly `2*n` spaces, the `indent=2` indentation at nesting level `n`. -/
def sp (n : Nat) : String :=
  String.mk (List.replicate (2 * n) ' ')

/-- Python `json.dump(v, f, indent=2)` rendering at a nesting level: with an
indent, items are separated by `",\n" + indentation` and key/value by
`": "`; empty containers stay on one line.  Tail mode as in `dumpAux`. -/
def dumpI : PyVal → Nat → Bool → String
  | vstr s, _, _ => quoteJson s
  | vint n, _, _ => toString n
  | vfloat q, _, _ => floatRepr q
  | vbool b, _, _ => if b then "true" else "false"
  | vnone, _, _ => "null"
  | varrNil, _, false => "[]"
  | varrNil, _, true => ""
  | varrCons h t, lvl, false =>
    "[\n" ++ sp (lvl + 1) ++ dumpI h (lvl + 1) false ++ dumpI t (lvl + 1) true ++ "\n" ++ sp lvl ++ "]"
  | varrCons h t, lvl, true => ",\n" ++ sp lvl ++ dumpI h lvl false ++ dumpI t lvl true
  | vobjNil, _, false => "\x7b\x7d"
  | vobjNil, _, true => ""
  | vobjCons k v r, lvl, false =>
    "\x7b\n" ++ sp (lvl + 1) ++ quoteJson k ++ ": " ++ dumpI v (lvl + 1) false ++ dumpI r (lvl + 1) true ++ "\n" ++ sp lvl ++ "\x7d"
  | vobjCons k v r, lvl, true => ",\n" ++ sp lvl ++ quoteJson k ++ ": " ++ dumpI v lvl false ++ dumpI r lvl true

/-- Python `json.dump(v, f, indent=2)` — the byte sequence the script writes to
the artifact file on line 107 of `src/main.py`. -/
def pyDumpsIndent2 (v : PyVal) : String :=
  dumpI v 0 false

/-- The opening-brace character (written via `Char.ofNat` so that brace characters
appear nowhere in the source text outside comments). -/
def lbraceC : Char := Char.ofNat 123

/-- The character `\x7d`. -/
def rbraceC : Char := Char.ofNat 125

/-- JSON insignificant whitespace (the `json` module's `_w` class). -/
def jsonWs (c : Char) : Bool :=
  c == ' ' || c == '\t' || c == '\n' || c == '\r'

/-- Drop leading JSON whitespace. -/
def skipWs : List Char → List Char
  | [] => []
  | c :: r => if jsonWs c then skipWs r else c :: r

/-- Value of one hexadecimal digit, if any (both cases accepted, as in
`\uXXXX` escapes). -/
def hexVal (c : Char) : Option Nat :=
  let n := c.toNat
  if 48 ≤ n && n ≤ 57 then some (n - 48)
  else if 97 ≤ n && n ≤ 102 then some (n - 87)
  else if 65 ≤ n && n ≤ 70 then some (n - 55)
  else none

/-- Is this an ASCII decimal digit? -/
def isDigitC (c : Char) : Bool :=
  48 ≤ c.toNat && c.toNat ≤ 57

/-- Value of an ASCII decimal digit. -/
def digitVal (c : Char) : Nat :=
  c.toNat - 48

/-- Longest run of leading decimal digits, with the remainder. -/
def takeDigits : List Char → List Nat × List Char
  | [] => ([], [])
  | c :: r =>
    if isDigitC c then
      let p := takeDigits r
      (digitVal c :: p.1, p.2)
    else ([], c :: r)

/-- Natural number denoted by a digit-value list (most significant first). -/
def digitsToNat (ds : List Nat) : Nat :=
  ds.foldl (fun acc d => 10 * acc + d) 0

/-- Body of a JSON string after the opening quote, per the `json` module
with its default `strict=True`: two-character escapes, `\uXXXX` escapes
(a high/low surrogate pair denotes one astral character), unescaped
control characters are an error.  A lone surrogate — which Python would
keep as a lone-surrogate code unit — has no `Char` counterpart and is
outside the model (no theorem below feeds one in).  The fuel (any value
at least the input length) makes the recursion structural: every step
consumes at least one character, and a rejected surrogate-pair
continuation puts back four characters of a six-character escape. -/
def parseStrAux : Nat → List Char → List Char → Option (String × List Char)
  | 0, _, _ => none
  | _ + 1, [], _ => none
  | fl + 1, c :: r, acc =>
    if c == '"' then some (String.mk acc.reverse, r)
    else if c == '\\' then
      match r with
      | [] => none
      | e :: r2 =>
        if e == '"' then parseStrAux fl r2 ('"' :: acc)
        else if e == '\\' then parseStrAux fl r2 ('\\' :: acc)
        else if e == '/' then parseStrAux fl r2 ('/' :: acc)
        else if e == 'b' then parseStrAux fl r2 (Char.ofNat 8 :: acc)
        else if e == 'f' then parseStrAux fl r2 (Char.ofNat 12 :: acc)
        else if e == 'n' then parseStrAux fl r2 ('\n' :: acc)
        else if e == 'r' then parseStrAux fl r2 ('\r' :: acc)
        else if e == 't' then parseStrAux fl r2 ('\t' :: acc)
        else if e == 'u' then
          match r2 with
          | h1 :: h2 :: h3 :: h4 :: r3 =>
            match hexVal h1, hexVal h2, hexVal h3, hexVal h4 with
            | some a, some b, some cD, some d =>
              let n := 4096 * a + 256 * b + 16 * cD + d
              if 55296 ≤ n && n ≤ 56319 then
                match r3 with
                | e2 :: u2 :: h5 :: h6 :: h7 :: h8 :: r4 =>
                  if e2 == '\\' && u2 == 'u' then
                    match hexVal h5, hexVal h6, hexVal h7, hexVal h8 with
                    | some a2, some b2, some c2, some d2 =>
                      let m := 4096 * a2 + 256 * b2 + 16 * c2 + d2
                      if 56320 ≤ m && m ≤ 57343 then
                        parseStrAux fl r4 (Char.ofNat (65536 + 1024 * (n - 55296) + (m - 56320)) :: acc)
                      else parseStrAux fl (h5 :: h6 :: h7 :: h8 :: r4) (Char.ofNat n :: acc)
                    | _, _, _, _ => parseStrAux fl (h5 :: h6 :: h7 :: h8 :: r4) (Char.ofNat n :: acc)
                  else parseStrAux fl r3 (Char.ofNat n :: acc)
                | _ => parseStrAux fl r3 (Char.ofNat n :: acc)
              else parseStrAux fl r3 (Char.ofNat n :: acc)
            | _, _, _, _ => none
          | _ => none
        else none
    else if c.toNat < 32 then none
    else parseStrAux fl r (c :: acc)

/-- Optional fraction part `.[0-9]+` of a JSON number: digit values and
count, with the remainder (absent when the text does not match). -/
def parseFracOpt : List Char → Option (Nat × Nat) × List Char
  | '.' :: c :: r =>
    if isDigitC c then
      let p := takeDigits r
      (some (digitsToNat (digitVal c :: p.1), p.1.length + 1), p.2)
    else (none, '.' :: c :: r)
  | l => (none, l)

/-- Optional exponent part `[eE][+-]?[0-9]+` of a JSON number. -/
def parseExpOpt : List Char → Option Int × List Char
  | c :: r =>
    if c == 'e' || c == 'E' then
      match r with
      | s :: r2 =>
        if s == '+' then
          match r2 with
          | d :: r3 =>
            if isDigitC d then
              let p := takeDigits r3
              (some (Int.ofNat (digitsToNat (digitVal d :: p.1))), p.2)
            else (none, c :: r)
          | [] => (none, c :: r)
        else if s == '-' then
          match r2 with
          | d :: r3 =>
            if isDigitC d then
              let p := takeDigits r3
              (some (-(Int.ofNat (digitsToNat (digitVal d :: p.1)))), p.2)
            else (none, c :: r)
          | [] => (none, c :: r)
        else if isDigitC s then
          let p := takeDigits r2
          (some (Int.ofNat (digitsToNat (digitVal s :: p.1))), p.2)
        else (none, c :: r)
      | [] => (none, c :: r)
    else (none, c :: r)
  | [] => (none, [])

/-- A JSON number at the head of the input, following the `json` module's
`NUMBER_RE`: `-?(0|[1-9][0-9]*)(\.[0-9]+)?([eE][+-]?[0-9]+)?`.  A pure
integer becomes a Python `int`; a fraction or exponent makes it a `float`
(here an exact rational — exact for every decimal the script round-trips). -/
def parseNum (l : List Char) : Option (PyVal × List Char) :=
  let sl : Bool × List Char :=
    match l with
    | c :: r => if c == '-' then (true, r) else (false, l)
    | [] => (false, [])
  match sl.2 with
  | [] => none
  | c :: r =>
    if !isDigitC c then none
    else
      let ip : Nat × List Char :=
        if c == '0' then (0, r)
        else
          let p := takeDigits r
          (digitsToNat (digitVal c :: p.1), p.2)
      let fr := parseFracOpt ip.2
      let ex := parseExpOpt fr.2
      match fr.1, ex.1 with
      | none, none =>
        some (vint (if sl.1 then -(Int.ofNat ip.1) else Int.ofNat ip.1), ex.2)
      | _, _ =>
        let base : Rat :=
          match fr.1 with
          | some (fv, fl) => (ip.1 : Rat) + (fv : Rat) / (10 : Rat) ^ fl
          | none => (ip.1 : Rat)
        let scaled : Rat :=
          match ex.1 with
          | some e => if 0 ≤ e then base * (10 : Rat) ^ e.toNat else base / (10 : Rat) ^ (-e).toNat
          | none => base
        some (vfloat (if sl.1 then -scaled else scaled), ex.2)

/-- Comma-separated array items (after the opening bracket and leading
whitespace, on a nonempty array), parameterised by the value parser.  The
fuel is at least the input length, which bounds the number of items. -/
def parseItemsArr (rec : List Char → Option (PyVal × List Char)) : Nat → List Char → Option (List PyVal × List Char)
  | 0, _ => none
  | f + 1, l =>
    match rec l with
    | none => none
    | some (v, r) =>
      match skipWs r with
      | c :: r2 =>
        if c == ',' then
          match parseItemsArr rec f (skipWs r2) with
          | some (vs, r3) => some (v :: vs, r3)
          | none => none
        else if c == ']' then some ([v], r2)
        else none
      | [] => none

/-- Comma-separated object members (after the opening brace and leading
whitespace, on a nonempty object).  Members are inserted with dict
assignment semantics, so a duplicate key keeps its first position and the
last value, as in Python. -/
def parseItemsObj (rec : List Char → Option (PyVal × List Char)) : Nat → List Char → PyVal → Option (PyVal × List Char)
  | 0, _, _ => none
  | f + 1, l, acc =>
    match l with
    | c :: r =>
      if c == '"' then
        match parseStrAux (r.length + 1) r [] with
        | none => none
        | some (k, r2) =>
          match skipWs r2 with
          | c2 :: r3 =>
            if c2 == ':' then
              match rec (skipWs r3) with
              | none => none
              | some (v, r4) =>
                let acc2 := objSetB acc k v
                match skipWs r4 with
                | c3 :: r5 =>
                  if c3 == ',' then
                    match skipWs r5 with
                    | c4 :: r6 => parseItemsObj rec f (c4 :: r6) acc2
                    | [] => none
                  else if c3 == rbraceC then some (acc2, r5)
                  else none
                | [] => none
            else none
          | [] => none
      else none
    | [] => none

/-- One layer of the JSON value grammar, parameterised by the parser for
nested values.  Mirrors the `json` module's scanner: object, array,
string, the three literals, or a number.  (The non-finite literals
`NaN`/`Infinity`/`-Infinity`, which CPython maps to IEEE non-finite
floats, are outside the rational value model and are treated as
unparseable here; no theorem below feeds one in.) -/
def parseStep (rec : List Char → Option (PyVal × List Char)) (l : List Char) : Option (PyVal × List Char) :=
  match l with
  | [] => none
  | c :: r =>
    if c == lbraceC then
      match skipWs r with
      | c2 :: r2 =>
        if c2 == rbraceC then some (vobjNil, r2)
        else parseItemsObj rec (r.length + 1) (c2 :: r2) vobjNil
      | [] => none
    else if c == '[' then
      match skipWs r with
      | c2 :: r2 =>
        if c2 == ']' then some (varrNil, r2)
        else
          match parseItemsArr rec (r.length + 1) (c2 :: r2) with
          | some (vs, r3) => some (listToArr vs, r3)
          | none => none
      | [] => none
    else if c == '"' then
      match parseStrAux (r.length + 1) r [] with
      | some (s, r2) => some (vstr s, r2)
      | none => none
    else
      match l with
      | 't' :: 'r' :: 'u' :: 'e' :: r2 => some (vbool true, r2)
      | 'f' :: 'a' :: 'l' :: 's' :: 'e' :: r2 => some (vbool false, r2)
      | 'n' :: 'u' :: 'l' :: 'l' :: r2 => some (vnone, r2)
      | _ => parseNum l

/-- The JSON value parser: fuel bounds the nesting depth (one unit per
nested container, so input length plus one always suffices). -/
def parseVal : Nat → List Char → Option (PyVal × List Char)
  | 0, _ => none
  | f + 1, l => parseStep (parseVal f) l

/-- Python `json.loads`: skip leading whitespace, parse one value, require only
whitespace after it ("Extra data" otherwise); `none` models
`json.JSONDecodeError`. -/
def jsonLoads (s : String) : Option PyVal :=
  match parseVal (s.data.length + 1) (skipWs s.data) with
  | some (v, r) => if (skipWs r).isEmpty then some v else none
  | none => none

/-- UTF-8 encoding of one character (the bytes `str.encode()` produces). -/
def utf8Char (c : Char) : List Nat :=
  let n := c.toNat
  if n < 128 then [n]
  else if n < 2048 then [192 + n / 64, 128 + n % 64]
  else if n < 65536 then [224 + n / 4096, 128 + n / 64 % 64, 128 + n % 64]
  else [240 + n / 262144, 128 + n / 4096 % 64, 128 + n / 64 % 64, 128 + n % 64]

/-- UTF-8 encoding of a string, as `str.encode()` on line 110 of
`src/main.py`. -/
def utf8Bytes (s : String) : List Nat :=
  (s.data.map utf8Char).flatten

/-- Truncate to a 32-bit word. -/
def m32 (x : Nat) : Nat :=
  x % 4294967296

/-- 32-bit addition. -/
def add32 (a b : Nat) : Nat :=
  m32 (a + b)

/-- 32-bit right rotation. -/
def rotr (n x : Nat) : Nat :=
  Nat.lor (x >>> n) (m32 ((x % 2 ^ n) <<< (32 - n)))

/-- 32-bit complement. -/
def not32 (x : Nat) : Nat :=
  Nat.xor x 4294967295

/-- SHA-256 `Ch`. -/
def shaCh (x y z : Nat) : Nat :=
  Nat.xor (Nat.land x y) (Nat.land (not32 x) z)

/-- SHA-256 `Maj`. -/
def shaMaj (x y z : Nat) : Nat :=
  Nat.xor (Nat.xor (Nat.land x y) (Nat.land x z)) (Nat.land y z)

/-- SHA-256 `Σ0`. -/
def bigSigma0 (x : Nat) : Nat :=
  Nat.xor (Nat.xor (rotr 2 x) (rotr 13 x)) (rotr 22 x)

/-- SHA-256 `Σ1`. -/
def bigSigma1 (x : Nat) : Nat :=
  Nat.xor (Nat.xor (rotr 6 x) (rotr 11 x)) (rotr 25 x)

/-- SHA-256 `σ0`. -/
def smallSigma0 (x : Nat) : Nat :=
  Nat.xor (Nat.xor (rotr 7 x) (rotr 18 x)) (x >>> 3)

/-- SHA-256 `σ1`. -/
def smallSigma1 (x : Nat) : Nat :=
  Nat.xor (Nat.xor (rotr 17 x) (rotr 19 x)) (x >>> 10)

/-- The 64 SHA-256 round constants. -/
def shaK : List Nat :=
  [1116352408, 1899447441, 3049323471, 3921009573, 961987163, 1508970993, 2453635748, 2870763221,
   3624381080, 310598401, 607225278, 1426881987, 1925078388, 2162078206, 2614888103, 3248222580,
   3835390401, 4022224774, 264347078, 604807628, 770255983, 1249150122, 1555081692, 1996064986,
   2554220882, 2821834349, 2952996808, 3210313671, 3336571891, 3584528711, 113926993, 338241895,
   666307205, 773529912, 1294757372, 1396182291, 1695183700, 1986661051, 2177026350, 2456956037,
   2730485921, 2820302411, 3259730800, 3345764771, 3516065817, 3600352804, 4094571909, 275423344,
   430227734, 506948616, 659060556, 883997877, 958139571, 1322822218, 1537002063, 1747873779,
   1955562222, 2024104815, 2227730452, 2361852424, 2428436474, 2756734187, 3204031479, 3329325298]

/-- The eight working variables of one SHA-256 compression. -/
structure Sha8 where
  a : Nat
  b : Nat
  c : Nat
  d : Nat
  e : Nat
  f : Nat
  g : Nat
  h : Nat

/-- The SHA-256 initial hash value. -/
def shaInit : Sha8 :=
  ⟨1779033703, 3144134277, 1013904242, 2773480762, 1359893119, 2600822924, 528734635, 1541459225⟩

/-- Extend a 16-word message block by one schedule word. -/
def schedStep (acc : List Nat) : List Nat :=
  let n := acc.length
  let w16 := acc.getD (n - 16) 0
  let w15 := acc.getD (n - 15) 0
  let w7 := acc.getD (n - 7) 0
  let w2 := acc.getD (n - 2) 0
  acc ++ [add32 (add32 (smallSigma1 w2) w7) (add32 (smallSigma0 w15) w16)]

/-- The 64-word message schedule of one block. -/
def schedule (block : List Nat) : List Nat :=
  (List.range 48).foldl (fun acc _ => schedStep acc) block

/-- One SHA-256 round. -/
def shaRound (st : Sha8) (kw : Nat × Nat) : Sha8 :=
  let t1 := add32 (add32 (add32 st.h (bigSigma1 st.e)) (add32 (shaCh st.e st.f st.g) kw.1)) kw.2
  let t2 := add32 (bigSigma0 st.a) (shaMaj st.a st.b st.c)
  ⟨add32 t1 t2, st.a, st.b, st.c, add32 st.d t1, st.e, st.f, st.g⟩

/-- Compress one 16-word block into the running hash value. -/
def shaCompress (st : Sha8) (block : List Nat) : Sha8 :=
  let w := schedule block
  let r := (shaK.zip w).foldl shaRound st
  ⟨add32 st.a r.a, add32 st.b r.b, add32 st.c r.c, add32 st.d r.d,
   add32 st.e r.e, add32 st.f r.f, add32 st.g r.g, add32 st.h r.h⟩

/-- Big-endian bytes of a 64-bit length field. -/
def len8 (x : Nat) : List Nat :=
  [x >>> 56 % 256, x >>> 48 % 256, x >>> 40 % 256, x >>> 32 % 256,
   x >>> 24 % 256, x >>> 16 % 256, x >>> 8 % 256, x % 256]

/-- SHA-256 padding: append `0x80`, zero bytes to 56 mod 64, then the
bit length as eight big-endian bytes. -/
def shaPad (msg : List Nat) : List Nat :=
  msg ++ [128] ++ List.replicate ((119 - msg.length % 64) % 64) 0 ++ len8 (8 * msg.length)

/-- Group bytes into big-endian 32-bit words. -/
def bytesToWords : List Nat → List Nat
  | b0 :: b1 :: b2 :: b3 :: rest => (16777216 * b0 + 65536 * b1 + 256 * b2 + b3) :: bytesToWords rest
  | _ => []

/-- Split a word list into 16-word blocks (fuel-driven so that the
definition reduces in the kernel; the fuel is the list length). -/
def blocksAux : Nat → List Nat → List (List Nat)
  | 0, _ => []
  | _ + 1, [] => []
  | f + 1, l => l.take 16 :: blocksAux f (l.drop 16)

/-- The padded message as a sequence of 16-word blocks. -/
def shaBlocks (msg : List Nat) : List (List Nat) :=
  let ws := bytesToWords (shaPad msg)
  blocksAux ws.length ws

/-- The 32 digest bytes of a final hash state. -/
def shaStateBytes (st : Sha8) : List Nat :=
  [st.a >>> 24 % 256, st.a >>> 16 % 256, st.a >>> 8 % 256, st.a % 256,
   st.b >>> 24 % 256, st.b >>> 16 % 256, st.b >>> 8 % 256, st.b % 256,
   st.c >>> 24 % 256, st.c >>> 16 % 256, st.c >>> 8 % 256, st.c % 256,
   st.d >>> 24 % 256, st.d >>> 16 % 256, st.d >>> 8 % 256, st.d % 256,
   st.e >>> 24 % 256, st.e >>> 16 % 256, st.e >>> 8 % 256, st.e % 256,
   st.f >>> 24 % 256, st.f >>> 16 % 256, st.f >>> 8 % 256, st.f % 256,
   st.g >>> 24 % 256, st.g >>> 16 % 256, st.g >>> 8 % 256, st.g % 256,
   st.h >>> 24 % 256, st.h >>> 16 % 256, st.h >>> 8 % 256, st.h % 256]

/-- Python `hashlib.sha256(bytes).hexdigest()`: the lowercase 64-character hex
digest of a byte sequence. -/
def sha256hex (msg : List Nat) : String :=
  String.mk (((shaBlocks msg).foldl shaCompress shaInit |> shaStateBytes).map hexByte).flatten

/-- A UTC calendar date, as produced by `datetime.utcnow()`. -/
structure Date where
  year : Nat
  month : Nat
  day : Nat
  deriving DecidableEq, Repr

/-- Linearisation of a date for comparisons: strictly monotone in
calendar order for real dates (`month ≤ 12`, `day ≤ 31`). -/
def dateKey (d : Date) : Nat :=
  512 * d.year + 32 * d.month + d.day

/-- Gregorian leap year, as `datetime` implements it. -/
def isLeap (y : Nat) : Bool :=
  y % 4 == 0 && (y % 100 != 0 || y % 400 == 0)

/-- Number of days of a month, as `datetime` implements it. -/
def daysInMonth (y m : Nat) : Nat :=
  if m == 2 then (if isLeap y then 29 else 28)
  else if m == 4 || m == 6 || m == 9 || m == 11 then 30
  else 31

/-- The value `datetime(today.year, today.month, 1) - timedelta(days=1)`: the last
calendar day of the month preceding `today` (lines 19-21 of
`src/main.py`). -/
def lastDayPrevMonth (today : Date) : Date :=
  if today.month == 1 then ⟨today.year - 1, 12, 31⟩
  else ⟨today.year, today.month - 1, daysInMonth today.year (today.month - 1)⟩

/-- The market-data provider, the spec's outside collaborator
`history(ticker, dateRangeOrPeriod) -> ordered sequence of (date,
closingPrice)`: given a ticker value and optional start/end dates it
returns date-ordered closing prices, or raises a provider error (which
`yf.Ticker(...).history` surfaces as an exception). -/
structure Provider where
  history : PyVal → Option Date → Option Date → Except PyErr (List (Date × Rat))

/-- A provider built from a fixed session list: a `history` query returns
exactly the sessions inside the (inclusive) requested date range, in
order — the spec's black-box contract for the price provider. -/
def mkProvider (sessions : List (Date × Rat)) : Provider :=
  ⟨fun _ s e =>
    .ok (sessions.filter (fun p =>
      (match s with
       | some a => decide (dateKey a ≤ dateKey p.1)
       | none => true) &&
      (match e with
       | some b => decide (dateKey p.1 ≤ dateKey b)
       | none => true)))⟩

/-- A provider from a total history function: it never raises. -/
def pureProvider (f : PyVal → Option Date → Option Date → List (Date × Rat)) : Provider :=
  ⟨fun t s e => .ok (f t s e)⟩

/-- A provider with no data at all. -/
def emptyProvider : Provider :=
  pureProvider (fun _ _ _ => [])

/-- A provider whose every call raises (network/provider failure). -/
def errProvider : Provider :=
  ⟨fun _ _ _ => .error .providerError⟩

/-- Function `get_price_end_of_last_month` (lines 14-33 of `src/main.py`): compute
the last calendar day of the prior month, query the provider for exactly
that day and return the last close if any rows came back; otherwise query
everything up to that day and return the last close if any; otherwise
`None`.  There is no `try`/`except`: a provider error propagates. -/
def get_price_end_of_last_month (ticker : PyVal) (provider : Provider) (today : Date) : Except PyErr (Option Rat) :=
  let last_day_prev_month := lastDayPrevMonth today
  match provider.history ticker (some last_day_prev_month) (some last_day_prev_month) with
  | .error e => .error e
  | .ok hist =>
    match hist.getLast? with
    | some p => .ok (some p.2)
    | none =>
      match provider.history ticker none (some last_day_prev_month) with
      | .error e => .error e
      | .ok hist2 =>
        match hist2.getLast? with
        | some p => .ok (some p.2)
        | none => .ok none

/-- The required-key list of the validator (line 88 of `src/main.py`). -/
def required_keys : List String :=
  ["ticker", "company_name", "recommendation", "confidence", "reasoning", "timestamp"]

/-- The comprehension `[k for k in required_keys if k not in stock]`: the missing keys in
`required_keys` order; a non-container `stock` raises `TypeError` at the
first membership test, as the comprehension does. -/
def missingAux (stock : PyVal) : List String → Except PyErr (List String)
  | [] => .ok []
  | k :: ks =>
    match pyContains stock k with
    | .error e => .error e
    | .ok b =>
      match missingAux stock ks with
      | .error e => .error e
      | .ok rest => .ok (if b then rest else k :: rest)

/-- The missing-key computation of line 91 of `src/main.py`. -/
def missingKeysE (stock : PyVal) : Except PyErr (List String) :=
  missingAux stock required_keys

/-- The price value the script stores: the float, or `None` when the
lookup returned no price. -/
def priceVal : Option Rat → PyVal
  | some q => vfloat q
  | none => vnone

/-- The validation-and-enrichment loop (lines 89-99 of `src/main.py`).
For each entry: compute the missing keys (may raise `TypeError`); if any
are missing, evaluate `stock.get('ticker', 'unknown')` for the diagnostic
print (may raise `AttributeError`) and skip the entry, retaining the
printed diagnostics; otherwise read `stock.get("ticker")`, and when it is
truthy look up the price (a provider error propagates) and assign
`stock["price_prior_month_end"]`; append the entry to the validated list.
Returns the validated entries and the skipped entries' diagnostics
(displayed ticker, missing keys) in order. -/
def validateLoop (provider : Provider) (today : Date) : List PyVal → Except PyErr (List PyVal × List (PyVal × List String))
  | [] => .ok ([], [])
  | stock :: rest =>
    match missingKeysE stock with
    | .error e => .error e
    | .ok missing =>
      if missing.isEmpty then
        match pyGet stock "ticker" vnone with
        | .error e => .error e
        | .ok tickerv =>
          let stockRes : Except PyErr PyVal :=
            if pyTruthy tickerv then
              match get_price_end_of_last_month tickerv provider today with
              | .error e => .error e
              | .ok pr => pySetItem stock "price_prior_month_end" (priceVal pr)
            else .ok stock
          match stockRes with
          | .error e => .error e
          | .ok stock2 =>
            match validateLoop provider today rest with
            | .error e => .error e
            | .ok (vs, rs) => .ok (stock2 :: vs, rs)
      else
        match pyGet stock "ticker" (vstr "unknown") with
        | .error e => .error e
        | .ok shown =>
          match validateLoop provider today rest with
          | .error e => .error e
          | .ok (vs, rs) => .ok (vs, (shown, missing) :: rs)

/-- Python whitespace stripped by `str.strip()`. -/
def pyWsChar (c : Char) : Bool :=
  c == ' ' || c == '\t' || c == '\n' || c == '\r' || c == Char.ofNat 11 || c == Char.ofNat 12

/-- Python `str.strip()` (over the ASCII whitespace the pipeline can meet). -/
def pyStrip (s : String) : String :=
  String.mk (((s.data.dropWhile pyWsChar).reverse.dropWhile pyWsChar).reverse)

/-- The artifact path of line 105 of `src/main.py`, from the UTC
timestamp rendered by `strftime('%Y%m%d_%H%M%S')`. -/
def mkFilename (ts : String) : String :=
  "outputs/sp500_top10_" ++ ts ++ ".json"

/-- One ledger line, `f"\x7bfilename\x7d: \x7bhash_value\x7d"`
(line 112 of `src/main.py`, before the newline). -/
def ledgerLine (filename digest : String) : String :=
  filename ++ ": " ++ digest

/-- The observable outcome of one completed (non-raising) run of
`query_sp500_top10`: what was printed, the artifact files written
(path, exact content bytes), the ledger lines appended, the string whose
UTF-8 bytes were hashed, and the function's return value. -/
structure RunOut where
  parseFailPrinted : Option String
  rejectedPrints : List (PyVal × List String)
  artifacts : List (String × String)
  ledger : List String
  hashedString : Option String
  confirmationPrinted : Bool
  result : Option (List PyVal)
  deriving Repr

/-- The outcome of the parse-failure branch (lines 82-85 of
`src/main.py`): the stripped response text is printed, the function
returns `None`, and nothing is written to disk. -/
def parseFailOut (content : String) : RunOut :=
  ⟨some content, [], [], [], none, false, none⟩

/-- The outcome of a run that reaches the persistence step (lines
104-116 of `src/main.py`): the `indent=2` serialization of the validated
list is written to `outputs/sp500_top10_<ts>.json`, while the digest
appended to the ledger is the SHA-256 of the *default* `json.dumps`
serialization of the same list; the confirmation lines are printed and
the validated list is returned. -/
def successOut (ts : String) (valids : List PyVal) (rejs : List (PyVal × List String)) : RunOut :=
  ⟨none, rejs,
   [(mkFilename ts, pyDumpsIndent2 (listToArr valids))],
   [ledgerLine (mkFilename ts) (sha256hex (utf8Bytes (pyDumps (listToArr valids))))],
   some (pyDumps (listToArr valids)), true, some valids⟩

/-- Function `query_sp500_top10` from the model response onwards (lines 77-116 of
`src/main.py`): strip the raw response, `json.loads` it — on failure
print the stripped text and return `None` (no artifact, no ledger line) —
then run the validation/enrichment loop (whose exceptions propagate) and
persist as in `successOut`.  `today` stands for the `datetime.utcnow()`
date used by the price lookups and `ts` for the timestamp in the
artifact name. -/
def query_sp500_top10 (raw : String) (provider : Provider) (today : Date) (ts : String) : Except PyErr RunOut :=
  let content := pyStrip raw
  match jsonLoads content with
  | none => .ok (parseFailOut content)
  | some parsed =>
    match pyIter parsed with
    | .error e => .error e
    | .ok stocks =>
      match validateLoop provider today stocks with
      | .error e => .error e
      | .ok (valids, rejs) => .ok (successOut ts valids rejs)

/-- The ledger file after one run appended to a previous ledger state:
the file is opened in append mode, so a run that reaches the persistence
step adds its lines at the end and a run that returns or raises earlier
leaves the file untouched. -/
def runLedger (prev : List String) (raw : String) (provider : Provider) (today : Date) (ts : String) : List String :=
  match query_sp500_top10 raw provider today ts with
  | .ok out => prev ++ out.ledger
  | .error _ => prev

/-- A value that is a genuine Python dict in the encoding: an object
spine ending in `vobjNil` (every dict built by the JSON parser has this
shape). -/
def dictShape : PyVal → Bool
  | vobjNil => true
  | vobjCons _ _ r => dictShape r
  | _ => false

/-- The missing-key list of a dict record, as a total function:
`required_keys` filtered to the keys the record lacks. -/
def missingB (stock : PyVal) : List String :=
  required_keys.filter (fun k => !objHasB stock k)

/-- The price lookup against a non-raising provider, as a total
function: last close of the exact prior-month-end day if any rows came
back, else last close up to that day, else `None`. -/
def price_pure (f : PyVal → Option Date → Option Date → List (Date × Rat)) (today : Date) (t : PyVal) : Option Rat :=
  let d := lastDayPrevMonth today
  match (f t (some d) (some d)).getLast? with
  | some p => some p.2
  | none =>
    match (f t none (some d)).getLast? with
    | some p => some p.2
    | none => none

/-- What the loop body does to one valid record under a non-raising
provider: if `stock.get("ticker")` is truthy, set
`price_prior_month_end` to the looked-up price (or `None`); otherwise
leave the record untouched. -/
def enrichOne (f : PyVal → Option Date → Option Date → List (Date × Rat)) (today : Date) (stock : PyVal) : PyVal :=
  if pyTruthy (objGetDB stock "ticker" vnone) then
    objSetB stock "price_prior_month_end"
      (priceVal (price_pure f today (objGetDB stock "ticker" vnone)))
  else stock

/-- Is this one of the sixteen lowercase hex digit characters? -/
def isHexCharB (c : Char) : Bool :=
  "0123456789abcdef".data.contains c

/-- A record with all six required keys and a nonempty ticker (string
values only; the validator never inspects value types). -/
def fullRec (t : String) : PyVal :=
  vobjCons "ticker" (vstr t)
    (vobjCons "company_name" (vstr "Example Corp")
      (vobjCons "recommendation" (vstr "Buy")
        (vobjCons "confidence" (vstr "0.8")
          (vobjCons "reasoning" (vstr "solid")
            (vobjCons "timestamp" (vstr "2026-10-01T00:00:00Z") vobjNil)))))

/-- A record with every required key except `reasoning`. -/
def noReasonRec (t : String) : PyVal :=
  vobjCons "ticker" (vstr t)
    (vobjCons "company_name" (vstr "Example Corp")
      (vobjCons "recommendation" (vstr "Hold")
        (vobjCons "confidence" (vstr "0.5")
          (vobjCons "timestamp" (vstr "2026-10-01T00:00:00Z") vobjNil))))

/-- The spec's validator scenario: ten records of which two lack only
`reasoning`. -/
def scenarioRecs : List PyVal :=
  [fullRec "T1", fullRec "T2", fullRec "T3", fullRec "T4", noReasonRec "T5",
   fullRec "T6", fullRec "T7", noReasonRec "T8", fullRec "T9", fullRec "T10"]

/-- A record carrying the five fields named by the spec's required set
(`companyName` is spelled `company_name` on the wire, as in the script's
own prompt), all non-empty — but no `timestamp`. -/
def fiveFieldRec : PyVal :=
  vobjCons "ticker" (vstr "AAPL")
    (vobjCons "company_name" (vstr "Apple Inc.")
      (vobjCons "recommendation" (vstr "Buy")
        (vobjCons "confidence" (vstr "0.8")
          (vobjCons "reasoning" (vstr "growth") vobjNil))))

/-- A record with all six required keys whose ticker is the empty
string: present, hence valid, but falsy. -/
def emptyTickerRec : PyVal :=
  vobjCons "ticker" (vstr "")
    (vobjCons "company_name" (vstr "X Corp")
      (vobjCons "recommendation" (vstr "Sell")
        (vobjCons "confidence" (vstr "0.4")
          (vobjCons "reasoning" (vstr "meh")
            (vobjCons "timestamp" (vstr "T") vobjNil)))))

/-- A model response whose JSON decodes to one complete record (string
values throughout, so every serialised byte is independent of the float
model). -/
def oneRecordRaw : String :=
  "[\x7b\"ticker\": \"AAPL\", \"company_name\": \"Apple Inc.\", \"recommendation\": \"Buy\", \"confidence\": \"high\", \"reasoning\": \"ok\", \"timestamp\": \"T\"\x7d]"

/-- The validated-and-enriched list produced from `oneRecordRaw` under a
provider with no data: the parsed record plus `price_prior_month_end:
None`. -/
def oneRecordEnriched : List PyVal :=
  [vobjCons "ticker" (vstr "AAPL")
    (vobjCons "company_name" (vstr "Apple Inc.")
      (vobjCons "recommendation" (vstr "Buy")
        (vobjCons "confidence" (vstr "high")
          (vobjCons "reasoning" (vstr "ok")
            (vobjCons "timestamp" (vstr "T")
              (vobjCons "price_prior_month_end" vnone vobjNil))))))]

/-- The spec's fenced-JSON example input for the parser. -/
def fencedRaw : String :=
  "prose ```json \x7b\"a\":1\x7d ``` trailing text"

theorem hexDig_mod16 (x : Nat) : isHexCharB (hexDig (x % 16)) = true := by
  have h : x % 16 < 16 := Nat.mod_lt _ (by norm_num)
  have hall : ∀ m : Fin 16, isHexCharB (hexDig m.val) = true := by decide
  exact hall ⟨x % 16, h⟩

theorem hexByte_hex (b : Nat) : ∀ c ∈ hexByte b, isHexCharB c = true := by
  intro c hc
  simp only [hexByte, List.mem_cons, List.mem_singleton, List.not_mem_nil, or_false] at hc
  rcases hc with h | h
  · rw [h]
    exact hexDig_mod16 _
  · rw [h]
    have : b % 16 = b % 16 % 16 := by omega
    rw [this]
    exact hexDig_mod16 _

theorem flatten_hexByte_length (l : List Nat) : ((l.map hexByte).flatten).length = 2 * l.length := by
  induction l with
  | nil => rfl
  | cons b t ih =>
    simp only [List.map_cons, List.flatten_cons, List.length_append, ih, hexByte,
      List.length_cons, List.length_nil, List.length_map]
    omega

theorem shaStateBytes_length (st : Sha8) : (shaStateBytes st).length = 32 := rfl

theorem sha256hex_length (msg : List Nat) : (sha256hex msg).length = 64 := by
  have h : (sha256hex msg).length = ((((shaBlocks msg).foldl shaCompress shaInit |> shaStateBytes).map hexByte).flatten).length := rfl
  rw [h, flatten_hexByte_length, shaStateBytes_length]

theorem sha256hex_hexChars (msg : List Nat) : ∀ c ∈ (sha256hex msg).data, isHexCharB c = true := by
  intro c hc
  have h : (sha256hex msg).data = (((shaBlocks msg).foldl shaCompress shaInit |> shaStateBytes).map hexByte).flatten := rfl
  rw [h] at hc
  rw [List.mem_flatten] at hc
  obtain ⟨a, ha, hca⟩ := hc
  rw [List.mem_map] at ha
  obtain ⟨b, _, hb⟩ := ha
  rw [← hb] at hca
  exact hexByte_hex b c hca

theorem pyContains_dict {o : PyVal} (h : dictShape o = true) (k : String) :
    pyContains o k = .ok (objHasB o k) := by
  induction o with
  | vobjNil => rfl
  | vobjCons k0 v r ihv ihr =>
    rw [pyContains, objHasB]
    by_cases hk : (k0 == k) = true
    · rw [if_pos hk, hk, Bool.true_or]
    · simp only [Bool.not_eq_true] at hk
      rw [if_neg (by simp [hk]), ihr (by simpa [dictShape] using h), hk, Bool.false_or]
  | _ => simp [dictShape] at h

theorem pyGet_dict {o : PyVal} (h : dictShape o = true) (k : String) (d : PyVal) :
    pyGet o k d = .ok (objGetDB o k d) := by
  induction o with
  | vobjNil => rfl
  | vobjCons k0 v r ihv ihr =>
    rw [pyGet, objGetDB]
    by_cases hk : (k0 == k) = true
    · rw [if_pos hk, if_pos hk]
    · rw [if_neg hk, if_neg hk, ihr (by simpa [dictShape] using h)]
  | _ => simp [dictShape] at h

theorem pySetItem_dict {o : PyVal} (h : dictShape o = true) (k : String) (v : PyVal) :
    pySetItem o k v = .ok (objSetB o k v) := by
  induction o with
  | vobjNil => rfl
  | vobjCons k0 v0 r ihv ihr =>
    rw [pySetItem, objSetB]
    by_cases hk : (k0 == k) = true
    · rw [if_pos hk, if_pos hk]
    · rw [if_neg hk, if_neg hk, ihr (by simpa [dictShape] using h)]
  | _ => simp [dictShape] at h

theorem missingAux_dict {o : PyVal} (h : dictShape o = true) (ks : List String) :
    missingAux o ks = .ok (ks.filter (fun k => !objHasB o k)) := by
  induction ks with
  | nil => rfl
  | cons k t ih =>
    rw [missingAux, pyContains_dict h, ih, List.filter_cons]
    by_cases hk : objHasB o k = true
    · simp [hk]
    · simp [hk]

theorem missingKeysE_dict {o : PyVal} (h : dictShape o = true) :
    missingKeysE o = .ok (missingB o) :=
  missingAux_dict h required_keys

theorem get_price_pureProvider (f : PyVal → Option Date → Option Date → List (Date × Rat)) (today : Date) (t : PyVal) :
    get_price_end_of_last_month t (pureProvider f) today = .ok (price_pure f today t) := by
  simp only [get_price_end_of_last_month, pureProvider, price_pure]
  cases hx : (f t (some (lastDayPrevMonth today)) (some (lastDayPrevMonth today))).getLast? with
  | some p => rfl
  | none =>
    cases hy : (f t none (some (lastDayPrevMonth today))).getLast? with
    | some p => rfl
    | none => rfl

theorem validateLoop_pure (f : PyVal → Option Date → Option Date → List (Date × Rat)) (today : Date)
    (stocks : List PyVal) (h : ∀ s ∈ stocks, dictShape s = true) :
    validateLoop (pureProvider f) today stocks =
      .ok ((stocks.filter (fun s => (missingB s).isEmpty)).map (enrichOne f today),
           (stocks.filter (fun s => !(missingB s).isEmpty)).map
             (fun s => (objGetDB s "ticker" (vstr "unknown"), missingB s))) := by
  induction stocks with
  | nil => rfl
  | cons stock rest ih =>
    have hs : dictShape stock = true := h stock (List.mem_cons_self stock rest)
    have hr : ∀ s ∈ rest, dictShape s = true := fun s hm => h s (List.mem_cons_of_mem _ hm)
    rw [validateLoop, missingKeysE_dict hs]
    dsimp only
    by_cases hm : (missingB stock).isEmpty = true
    · rw [if_pos hm, pyGet_dict hs]
      dsimp only
      by_cases ht : pyTruthy (objGetDB stock "ticker" vnone) = true
      · rw [if_pos ht, get_price_pureProvider]
        dsimp only
        rw [pySetItem_dict hs, ih hr]
        rw [List.filter_cons, List.filter_cons, if_pos hm, if_neg (by simp [hm])]
        simp only [List.map_cons]
        have he : enrichOne f today stock =
            objSetB stock "price_prior_month_end"
              (priceVal (price_pure f today (objGetDB stock "ticker" vnone))) := by
          rw [enrichOne, if_pos ht]
        rw [he]
      · rw [if_neg ht, ih hr]
        rw [List.filter_cons, List.filter_cons, if_pos hm, if_neg (by simp [hm])]
        simp only [List.map_cons]
        have he : enrichOne f today stock = stock := by
          rw [enrichOne, if_neg ht]
        rw [he]
    · rw [if_neg hm, pyGet_dict hs]
      dsimp only
      rw [ih hr]
      dsimp only
      rw [List.filter_cons, List.filter_cons, if_neg (by simp [hm]), if_pos (by simp [hm])]
      simp only [List.map_cons]

theorem filter_key_eq_singleton (kd : Nat) (S : List (Date × Rat))
    (hs : S.Pairwise (fun a b => dateKey a.1 < dateKey b.1)) (p : Date × Rat)
    (hp : p ∈ S) (hk : dateKey p.1 = kd) :
    S.filter (fun x => decide (dateKey x.1 = kd)) = [p] := by
  induction S with
  | nil => cases hp
  | cons a T ih =>
    rw [List.pairwise_cons] at hs
    obtain ⟨ha, hT⟩ := hs
    rcases List.mem_cons.mp hp with h1 | h1
    · subst h1
      rw [List.filter_cons, if_pos (by simp [hk])]
      have hnil : T.filter (fun x => decide (dateKey x.1 = kd)) = [] := by
        rw [List.filter_eq_nil_iff]
        intro b hb
        have h2 := ha b hb
        simp only [decide_eq_true_eq]
        omega
      rw [hnil]
    · have hne : dateKey a.1 ≠ kd := by
        have h2 := ha p h1
        omega
      rw [List.filter_cons, if_neg (by simp [hne])]
      exact ih hT h1

theorem filter_le_getLast (kd : Nat) (S : List (Date × Rat))
    (hs : S.Pairwise (fun a b => dateKey a.1 < dateKey b.1)) (q : Date × Rat)
    (hq : q ∈ S) (hle : dateKey q.1 ≤ kd)
    (hmax : ∀ r ∈ S, dateKey r.1 ≤ kd → dateKey r.1 ≤ dateKey q.1) :
    (S.filter (fun x => decide (dateKey x.1 ≤ kd))).getLast? = some q := by
  induction S with
  | nil => cases hq
  | cons a T ih =>
    rw [List.pairwise_cons] at hs
    obtain ⟨ha, hT⟩ := hs
    rcases List.mem_cons.mp hq with h1 | h1
    · subst h1
      rw [List.filter_cons, if_pos (by simp [hle])]
      have hnil : T.filter (fun x => decide (dateKey x.1 ≤ kd)) = [] := by
        rw [List.filter_eq_nil_iff]
        intro b hb
        have h2 := ha b hb
        have h3 := hmax b (List.mem_cons_of_mem _ hb)
        simp only [decide_eq_true_eq]
        intro h4
        have h5 := h3 h4
        omega
      rw [hnil]
      rfl
    · by_cases hA : dateKey a.1 ≤ kd
      · rw [List.filter_cons, if_pos (by simp [hA])]
        have hqf : q ∈ T.filter (fun x => decide (dateKey x.1 ≤ kd)) := by
          rw [List.mem_filter]
          exact ⟨h1, by simp [hle]⟩
        have hne : T.filter (fun x => decide (dateKey x.1 ≤ kd)) ≠ [] := by
          intro hc
          rw [hc] at hqf
          cases hqf
        obtain ⟨b, l2, hbl⟩ := List.exists_cons_of_ne_nil hne
        rw [hbl, List.getLast?_cons_cons, ← hbl]
        exact ih hT h1 (fun r hr hrle => hmax r (List.mem_cons_of_mem _ hr) hrle)
      · rw [List.filter_cons, if_neg (by simp [hA])]
        exact ih hT h1 (fun r hr hrle => hmax r (List.mem_cons_of_mem _ hr) hrle)

theorem get_price_mkProvider (S : List (Date × Rat)) (t : PyVal) (today : Date) :
    get_price_end_of_last_month t (mkProvider S) today =
      (match (S.filter (fun p =>
          decide (dateKey (lastDayPrevMonth today) ≤ dateKey p.1) &&
          decide (dateKey p.1 ≤ dateKey (lastDayPrevMonth today)))).getLast? with
       | some p => .ok (some p.2)
       | none =>
         match (S.filter (fun p =>
             decide (dateKey p.1 ≤ dateKey (lastDayPrevMonth today)))).getLast? with
         | some p => .ok (some p.2)
         | none => .ok none) := rfl

/-- C6: under the end-of-prior-month policy, against a provider holding a
date-ordered session list, the lookup returns the close of the last
calendar day of the month preceding `today` when a session exists on that
exact date; otherwise the close of the most recent session strictly
before that date; and `None` exactly when the provider has no session at
or before that date. -/
theorem price_end_of_prior_month_policy (today : Date) (S : List (Date × Rat)) (t : PyVal)
    (hs : S.Pairwise (fun a b => dateKey a.1 < dateKey b.1)) :
    (∀ p ∈ S, dateKey p.1 = dateKey (lastDayPrevMonth today) →
       get_price_end_of_last_month t (mkProvider S) today = .ok (some p.2)) ∧
    ((∀ p ∈ S, dateKey p.1 ≠ dateKey (lastDayPrevMonth today)) →
       ∀ q ∈ S, dateKey q.1 < dateKey (lastDayPrevMonth today) →
         (∀ r ∈ S, dateKey r.1 < dateKey (lastDayPrevMonth today) → dateKey r.1 ≤ dateKey q.1) →
         get_price_end_of_last_month t (mkProvider S) today = .ok (some q.2)) ∧
    ((∀ p ∈ S, ¬ dateKey p.1 ≤ dateKey (lastDayPrevMonth today)) →
       get_price_end_of_last_month t (mkProvider S) today = .ok none) := by
  have hcongr : S.filter (fun p =>
        decide (dateKey (lastDayPrevMonth today) ≤ dateKey p.1) &&
        decide (dateKey p.1 ≤ dateKey (lastDayPrevMonth today))) =
      S.filter (fun p => decide (dateKey p.1 = dateKey (lastDayPrevMonth today))) := by
    apply List.filter_congr
    intro x _
    by_cases hx : dateKey x.1 = dateKey (lastDayPrevMonth today)
    · simp [hx]
    · have hb : (decide (dateKey x.1 = dateKey (lastDayPrevMonth today))) = false := by
        simpa using hx
      rw [hb]
      rw [Bool.and_eq_false_iff]
      by_cases hy : dateKey (lastDayPrevMonth today) ≤ dateKey x.1
      · right
        simp only [decide_eq_false_iff_not]
        omega
      · left
        simp only [decide_eq_false_iff_not]
        omega
  refine ⟨?_, ?_, ?_⟩
  · intro p hp hk
    rw [get_price_mkProvider, hcongr,
      filter_key_eq_singleton (dateKey (lastDayPrevMonth today)) S hs p hp hk]
    rfl
  · intro hnone q hq hlt hmax
    have hnil : S.filter (fun p => decide (dateKey p.1 = dateKey (lastDayPrevMonth today))) = [] := by
      rw [List.filter_eq_nil_iff]
      intro b hb
      simp only [decide_eq_true_eq]
      exact hnone b hb
    rw [get_price_mkProvider, hcongr, hnil,
      filter_le_getLast (dateKey (lastDayPrevMonth today)) S hs q hq (le_of_lt hlt)
        (fun r hr hrle => hmax r hr (lt_of_le_of_ne hrle (hnone r hr)))]
    rfl
  · intro hno
    have hnil1 : S.filter (fun p => decide (dateKey p.1 = dateKey (lastDayPrevMonth today))) = [] := by
      rw [List.filter_eq_nil_iff]
      intro b hb
      simp only [decide_eq_true_eq]
      intro hbe
      exact hno b hb (le_of_eq hbe)
    have hnil2 : S.filter (fun p => decide (dateKey p.1 ≤ dateKey (lastDayPrevMonth today))) = [] := by
      rw [List.filter_eq_nil_iff]
      intro b hb
      simp only [decide_eq_true_eq]
      exact hno b hb
    rw [get_price_mkProvider, hcongr, hnil1, hnil2]
    rfl

/-- Witness for the policy theorem: with sessions on 2026-09-29 and
2026-09-30 and `today` = 2026-10-12, the lookup returns the 2026-09-30
close. -/
theorem price_end_of_prior_month_policy_witness :
    get_price_end_of_last_month (vstr "AAPL")
      (mkProvider [(⟨2026, 9, 29⟩, 10), (⟨2026, 9, 30⟩, 11)]) ⟨2026, 10, 12⟩ = .ok (some 11) :=
  (price_end_of_prior_month_policy ⟨2026, 10, 12⟩
      [(⟨2026, 9, 29⟩, 10), (⟨2026, 9, 30⟩, 11)] (vstr "AAPL") (by decide)).1
    (⟨2026, 9, 30⟩, 11) (by decide) (by decide)

/-- C5 counterexample: the claim says a provider error raised during the
lookup is caught locally and mapped to the unavailable marker, but
`get_price_end_of_last_month` has no handler — a raising provider makes
the lookup raise. -/
theorem price_lookup_propagates_provider_error_cex :
    get_price_end_of_last_month (vstr "AAPL") errProvider ⟨2026, 10, 12⟩ =
      .error .providerError := rfl

/-- C5 amended: when the provider returns data (possibly empty) the
lookup returns a price or `None` without raising, and returns `None`
exactly when both the exact-day query and the fallback query come back
empty; a provider exception is not caught and propagates. -/
theorem price_lookup_pure_provider_total
    (f : PyVal → Option Date → Option Date → List (Date × Rat)) (t : PyVal) (today : Date) :
    get_price_end_of_last_month t (pureProvider f) today = .ok (price_pure f today t) ∧
    (get_price_end_of_last_month t (pureProvider f) today = .ok none ↔
      f t (some (lastDayPrevMonth today)) (some (lastDayPrevMonth today)) = [] ∧
      f t none (some (lastDayPrevMonth today)) = []) := by
  refine ⟨get_price_pureProvider f today t, ?_⟩
  rw [get_price_pureProvider, price_pure]
  cases hx : (f t (some (lastDayPrevMonth today)) (some (lastDayPrevMonth today))).getLast? with
  | some p =>
    have h1 : f t (some (lastDayPrevMonth today)) (some (lastDayPrevMonth today)) ≠ [] := by
      intro hc
      rw [hc] at hx
      cases hx
    constructor
    · intro h
      simp at h
    · intro hc
      exact absurd hc.1 h1
  | none =>
    have h1 : f t (some (lastDayPrevMonth today)) (some (lastDayPrevMonth today)) = [] :=
      List.getLast?_eq_none_iff.mp hx
    cases hy : (f t none (some (lastDayPrevMonth today))).getLast? with
    | some p =>
      have h2 : f t none (some (lastDayPrevMonth today)) ≠ [] := by
        intro hc
        rw [hc] at hy
        cases hy
      constructor
      · intro h
        simp at h
      · intro hc
        exact absurd hc.2 h2
    | none =>
      have h2 : f t none (some (lastDayPrevMonth today)) = [] :=
        List.getLast?_eq_none_iff.mp hy
      exact ⟨fun _ => ⟨h1, h2⟩, fun _ => rfl⟩

/-- C2 counterexample: a record carrying the claim's five required
fields (ticker, company_name, recommendation, confidence, reasoning),
all present and non-empty, is nonetheless rejected by the validator with
diagnostic `timestamp` — the code requires six keys, so the claimed
"valid if and only if the five fields are present and non-empty" is
false. -/
theorem validator_requires_timestamp_cex :
    missingKeysE fiveFieldRec = .ok ["timestamp"] ∧
    validateLoop emptyProvider ⟨2026, 10, 12⟩ [fiveFieldRec] =
      .ok ([], [(vstr "AAPL", ["timestamp"])]) ∧
    (∀ k ∈ ["ticker", "company_name", "recommendation", "confidence", "reasoning"],
       objHasB fiveFieldRec k = true ∧ pyTruthy (objGetDB fiveFieldRec k vnone) = true) := by
  refine ⟨rfl, rfl, ?_⟩
  decide

/-- C2 amended: a record is kept if and only if each of the six keys
`ticker, company_name, recommendation, confidence, reasoning, timestamp`
is present (presence only — empty values pass); a record with missing
keys is skipped, with exactly the missing key names (in `required_keys`
order) retained in the printed diagnostics, and processing continues; in
the spec's scenario — ten records, all carrying the other five keys and
a timestamp, two missing only `reasoning` — eight are kept and the two
rejections list exactly `reasoning`. -/
theorem validator_presence_of_six_keys :
    (∀ (f : PyVal → Option Date → Option Date → List (Date × Rat)) (today : Date)
       (stocks : List PyVal), (∀ s ∈ stocks, dictShape s = true) →
       validateLoop (pureProvider f) today stocks =
         .ok ((stocks.filter (fun s => (missingB s).isEmpty)).map (enrichOne f today),
              (stocks.filter (fun s => !(missingB s).isEmpty)).map
                (fun s => (objGetDB s "ticker" (vstr "unknown"), missingB s)))) ∧
    (∀ s : PyVal, (missingB s).isEmpty = true ↔ ∀ k ∈ required_keys, objHasB s k = true) ∧
    ((validateLoop emptyProvider ⟨2026, 10, 12⟩ scenarioRecs).map
        (fun pr => (pr.1.length, pr.2.map Prod.snd)) =
      .ok (8, [["reasoning"], ["reasoning"]])) := by
  refine ⟨validateLoop_pure, ?_, rfl⟩
  intro s
  rw [missingB, List.isEmpty_iff, List.filter_eq_nil_iff]
  constructor
  · intro h k hk
    have h2 := h k hk
    simpa using h2
  · intro h k hk
    simp [h k hk]

/-- Witness for the amended validator theorem: one fully-keyed record is
kept and enriched, none rejected. -/
theorem validator_presence_of_six_keys_witness :
    validateLoop (pureProvider (fun _ _ _ => [])) ⟨2026, 1, 1⟩ [fullRec "W2"] =
      .ok ((([fullRec "W2"].filter (fun s => (missingB s).isEmpty)).map
              (enrichOne (fun _ _ _ => []) ⟨2026, 1, 1⟩)),
           ([fullRec "W2"].filter (fun s => !(missingB s).isEmpty)).map
             (fun s => (objGetDB s "ticker" (vstr "unknown"), missingB s))) :=
  validator_presence_of_six_keys.1 (fun _ _ _ => []) ⟨2026, 1, 1⟩ [fullRec "W2"] (by decide)

/-- C7 counterexample: a valid record (all six keys present) whose
ticker is the empty string passes validation but is emitted with neither
a numeric price nor an absence marker — no `price_prior_month_end` key
is attached at all, refuting "never both and never neither". -/
theorem enricher_skips_falsy_ticker_cex :
    validateLoop emptyProvider ⟨2026, 10, 12⟩ [emptyTickerRec] = .ok ([emptyTickerRec], []) ∧
    objHasB emptyTickerRec "price_prior_month_end" = false ∧
    (missingB emptyTickerRec).isEmpty = true :=
  ⟨rfl, rfl, rfl⟩

/-- C7 amended: for valid records under a non-raising provider the loop
is one-to-one and order-preserving (N records in, the same N in the same
order out, none rejected), and each output record equals its input with
`price_prior_month_end` set to the looked-up price or `None` when the
record's ticker value is truthy — while a record whose ticker value is
falsy (such as the empty string) is passed through unchanged, with no
price attachment. -/
theorem enricher_preserves_order_and_attaches_price
    (f : PyVal → Option Date → Option Date → List (Date × Rat)) (today : Date)
    (stocks : List PyVal)
    (h : ∀ s ∈ stocks, dictShape s = true ∧ (missingB s).isEmpty = true) :
    validateLoop (pureProvider f) today stocks = .ok (stocks.map (enrichOne f today), []) ∧
    (stocks.map (enrichOne f today)).length = stocks.length ∧
    (∀ s ∈ stocks,
      (pyTruthy (objGetDB s "ticker" vnone) = true →
        enrichOne f today s =
          objSetB s "price_prior_month_end"
            (priceVal (price_pure f today (objGetDB s "ticker" vnone)))) ∧
      (pyTruthy (objGetDB s "ticker" vnone) = false → enrichOne f today s = s)) := by
  refine ⟨?_, List.length_map _ _, ?_⟩
  · rw [validateLoop_pure f today stocks (fun s hs => (h s hs).1)]
    have h1 : stocks.filter (fun s => (missingB s).isEmpty) = stocks := by
      rw [List.filter_eq_self]
      intro s hs
      exact (h s hs).2
    have h2 : stocks.filter (fun s => !(missingB s).isEmpty) = [] := by
      rw [List.filter_eq_nil_iff]
      intro s hs
      simp [(h s hs).2]
    rw [h1, h2]
    rfl
  · intro s _
    constructor
    · intro ht
      rw [enrichOne, if_pos ht]
    · intro ht
      rw [enrichOne, if_neg (by simp [ht])]

/-- Witness for the amended enricher theorem: a single fully-keyed
record with a truthy ticker. -/
theorem enricher_preserves_order_and_attaches_price_witness :
    validateLoop (pureProvider (fun _ _ _ => [])) ⟨2026, 2, 2⟩ [fullRec "W7"] =
      .ok ([fullRec "W7"].map (enrichOne (fun _ _ _ => []) ⟨2026, 2, 2⟩), []) :=
  (enricher_preserves_order_and_attaches_price (fun _ _ _ => []) ⟨2026, 2, 2⟩ [fullRec "W7"]
    (by decide)).1

/-- C8 counterexample: a response whose top-level parsed value is the
number `5` makes the run raise `TypeError` (iterating an `int`) instead
of short-circuiting with zero valid records and a malformed-input
marker. -/
theorem validator_raises_on_scalar_top_level_cex :
    query_sp500_top10 "5" emptyProvider ⟨2026, 10, 12⟩ "t8" = .error .typeError := rfl

/-- C8 amended: a non-sequence top-level value makes the validator
raise, not short-circuit: iterating a number raises `TypeError`; a
non-empty string (and hence a non-empty dict, whose keys are iterated as
strings) reaches `stock.get` on a `str` and raises `AttributeError`;
only an empty dict or empty string yields zero valid records — and then
no malformed-input marker exists: an empty `[]` artifact is persisted as
if the run had succeeded. -/
theorem validator_non_sequence_behavior :
    (∀ (n : Int) (raw : String) (provider : Provider) (today : Date) (ts : String),
       jsonLoads (pyStrip raw) = some (vint n) →
       query_sp500_top10 raw provider today ts = .error .typeError) ∧
    (∀ (s : String) (rest : List PyVal) (provider : Provider) (today : Date),
       validateLoop provider today (vstr s :: rest) = .error .attributeError) ∧
    (query_sp500_top10 "\x7b\"a\": 1\x7d" emptyProvider ⟨2026, 10, 12⟩ "t8a" =
      .error .attributeError) ∧
    ((query_sp500_top10 "\"\"" emptyProvider ⟨2026, 10, 12⟩ "t8b").map
       (fun o => (o.result, o.artifacts.map Prod.snd)) = .ok (some [], ["[]"])) := by
  refine ⟨?_, ?_, rfl, rfl⟩
  · intro n raw provider today ts h
    rw [query_sp500_top10]
    rw [h]
    rfl
  · intro s rest provider today
    rw [validateLoop]
    obtain ⟨m, hm⟩ : ∃ m, missingKeysE (vstr s) = .ok m := ⟨_, rfl⟩
    rw [hm]
    dsimp only
    by_cases he : m.isEmpty = true
    · rw [if_pos he]
      rfl
    · rw [if_neg he]
      rfl

/-- Witness for the non-sequence theorem: the response `7` raises
`TypeError`. -/
theorem validator_non_sequence_behavior_witness :
    query_sp500_top10 "7" emptyProvider ⟨2026, 1, 1⟩ "w8" = .error .typeError :=
  validator_non_sequence_behavior.1 7 "7" emptyProvider ⟨2026, 1, 1⟩ "w8" (by decide)

/-- C3 counterexample: on the spec's example input — JSON wrapped in a
markdown fence with surrounding prose — direct decoding fails and the
run returns `None`: there is no balanced-span fallback, and the value
`\x7b"a":1\x7d` is not extracted. -/
theorem parser_no_balanced_span_extraction_cex :
    jsonLoads (pyStrip fencedRaw) = none ∧
    (query_sp500_top10 fencedRaw emptyProvider ⟨2026, 10, 12⟩ "t3").map RunOut.result =
      .ok none ∧
    jsonLoads (pyStrip fencedRaw) ≠ some (vobjCons "a" (vint 1) vobjNil) := by
  refine ⟨rfl, rfl, ?_⟩
  intro h
  cases h

/-- C3 amended: the parse stage attempts only direct `json.loads`
decoding; on any input where that fails — balanced span present or not —
the run prints the stripped text, returns `None`, and no span is ever
extracted. -/
theorem parser_direct_decode_only (raw : String) (provider : Provider) (today : Date)
    (ts : String) (h : jsonLoads (pyStrip raw) = none) :
    (query_sp500_top10 raw provider today ts).map RunOut.result = .ok none := by
  rw [query_sp500_top10, h]
  rfl

/-- Witness for the direct-decode-only theorem at a garbage input. -/
theorem parser_direct_decode_only_witness :
    (query_sp500_top10 "::::" emptyProvider ⟨2026, 1, 1⟩ "w3").map RunOut.result = .ok none :=
  parser_direct_decode_only "::::" emptyProvider ⟨2026, 1, 1⟩ "w3" (by decide)

/-- C4 counterexample: a run whose response is `"I cannot comply.\n"`
completes without raising, but produces zero artifacts, zero ledger
lines, no confirmation line — and what it prints is the *stripped* text,
not the raw text verbatim. -/
theorem parse_failure_produces_no_artifact_cex :
    query_sp500_top10 "I cannot comply.\n" emptyProvider ⟨2026, 10, 12⟩ "t4" =
      .ok (parseFailOut "I cannot comply.") ∧
    (parseFailOut "I cannot comply.").artifacts.length = 0 ∧
    (parseFailOut "I cannot comply.").ledger = [] ∧
    (parseFailOut "I cannot comply.").confirmationPrinted = false ∧
    (parseFailOut "I cannot comply.").parseFailPrinted ≠ some "I cannot comply.\n" := by
  refine ⟨rfl, rfl, rfl, rfl, ?_⟩
  decide

/-- C4 amended: the parse stage never raises — on any decode failure the
function prints the *stripped* response text, returns `None`, and
persists nothing: no artifact, no ledger line, no confirmation. -/
theorem parse_failure_prints_and_returns_none (raw : String) (provider : Provider)
    (today : Date) (ts : String) (h : jsonLoads (pyStrip raw) = none) :
    query_sp500_top10 raw provider today ts = .ok (parseFailOut (pyStrip raw)) := by
  rw [query_sp500_top10, h]

/-- Witness for the parse-failure theorem at a garbage input. -/
theorem parse_failure_prints_and_returns_none_witness :
    query_sp500_top10 "not json at all" emptyProvider ⟨2026, 1, 1⟩ "w4" =
      .ok (parseFailOut "not json at all") :=
  parse_failure_prints_and_returns_none "not json at all" emptyProvider ⟨2026, 1, 1⟩ "w4"
    (by decide)

theorem query_shape (raw : String) (provider : Provider) (today : Date) (ts : String) :
    (∃ e, query_sp500_top10 raw provider today ts = .error e) ∨
    query_sp500_top10 raw provider today ts = .ok (parseFailOut (pyStrip raw)) ∨
    ∃ valids rejs, query_sp500_top10 raw provider today ts = .ok (successOut ts valids rejs) := by
  rw [query_sp500_top10]
  cases jsonLoads (pyStrip raw) with
  | none => exact Or.inr (Or.inl rfl)
  | some parsed =>
    dsimp only
    cases pyIter parsed with
    | error e => exact Or.inl ⟨e, rfl⟩
    | ok stocks =>
      dsimp only
      cases validateLoop provider today stocks with
      | error e => exact Or.inl ⟨e, rfl⟩
      | ok pr =>
        obtain ⟨v, r⟩ := pr
        exact Or.inr (Or.inr ⟨v, r, rfl⟩)

/-- C9 amended: the ledger is append-only — one run never changes the
first `prev.length` lines — and either leaves the file untouched (a run
that returns or raises before the persistence step) or appends exactly
one line of the form `outputs/sp500_top10_<ts>.json: <digest>` whose
digest is 64 lowercase hexadecimal characters. -/
theorem ledger_append_only_format (prev : List String) (raw : String) (provider : Provider)
    (today : Date) (ts : String) :
    (runLedger prev raw provider today ts).take prev.length = prev ∧
    (runLedger prev raw provider today ts = prev ∨
      ∃ digest, runLedger prev raw provider today ts = prev ++ [mkFilename ts ++ ": " ++ digest] ∧
        digest.length = 64 ∧ ∀ c ∈ digest.data, isHexCharB c = true) := by
  constructor
  · rw [runLedger]
    rcases query_shape raw provider today ts with ⟨e, hq⟩ | hq | ⟨v, r, hq⟩
    · rw [hq]
      exact List.take_length prev
    · rw [hq]
      show (prev ++ []).take prev.length = prev
      rw [List.append_nil]
      exact List.take_length prev
    · rw [hq]
      exact List.take_left prev _
  · rw [runLedger]
    rcases query_shape raw provider today ts with ⟨e, hq⟩ | hq | ⟨v, r, hq⟩
    · rw [hq]
      exact Or.inl rfl
    · rw [hq]
      left
      show prev ++ [] = prev
      exact List.append_nil prev
    · rw [hq]
      right
      exact ⟨sha256hex (utf8Bytes (pyDumps (listToArr v))), rfl,
        sha256hex_length _, sha256hex_hexChars _⟩

/-- C9 counterexample: a run whose response fails to parse appends no
ledger line, so after one such run the ledger has zero lines, not one —
"after N runs the ledger file contains exactly N lines" fails. -/
theorem ledger_skips_failed_runs_cex :
    runLedger [] "no json here" emptyProvider ⟨2026, 10, 12⟩ "t9" = [] := rfl

/-- C10: on every run that returns a list (the response decoded as a
sequence and the loop raised nothing), the returned list is exactly the
list whose `indent=2` serialization is the artifact's content and whose
default `json.dumps` serialization was fed to the hash: the return
value, the persisted artifact and the hashed bytes all denote the same
validated-and-enriched list. -/
theorem returned_list_matches_artifact_and_hash (raw : String) (provider : Provider)
    (today : Date) (ts : String) (out : RunOut) (l : List PyVal)
    (h1 : query_sp500_top10 raw provider today ts = .ok out) (h2 : out.result = some l) :
    out.artifacts = [(mkFilename ts, pyDumpsIndent2 (listToArr l))] ∧
    out.hashedString = some (pyDumps (listToArr l)) ∧
    out.ledger = [ledgerLine (mkFilename ts) (sha256hex (utf8Bytes (pyDumps (listToArr l))))] := by
  rcases query_shape raw provider today ts with ⟨e, hq⟩ | hq | ⟨v, r, hq⟩
  · rw [h1] at hq
    cases hq
  · rw [h1] at hq
    injection hq with hq
    subst hq
    cases h2
  · rw [h1] at hq
    injection hq with hq
    subst hq
    have hv : v = l := by
      have h3 : some v = some l := h2
      injection h3
    subst hv
    exact ⟨rfl, rfl, rfl⟩

/-- Witness for the return/artifact/hash agreement theorem: the empty
recommendation list. -/
theorem returned_list_matches_artifact_and_hash_witness :
    (successOut "w10" [] []).artifacts = [(mkFilename "w10", pyDumpsIndent2 (listToArr []))] ∧
    (successOut "w10" [] []).hashedString = some (pyDumps (listToArr [])) ∧
    (successOut "w10" [] []).ledger =
      [ledgerLine (mkFilename "w10") (sha256hex (utf8Bytes (pyDumps (listToArr []))))] :=
  returned_list_matches_artifact_and_hash "[]" emptyProvider ⟨2026, 1, 1⟩ "w10"
    (successOut "w10" [] []) [] rfl rfl

/-- C1: the code writes the `indent=2` serialization to the artifact
file but hashes the default `json.dumps` serialization — for any
non-empty batch these are different byte sequences, so the digest in the
ledger line is the SHA-256 of a fresh re-serialization, not of the bytes
persisted to the artifact.  Evaluated here at a one-record batch. -/
theorem ledger_digest_hashes_reserialized_bytes :
    query_sp500_top10 oneRecordRaw emptyProvider ⟨2026, 10, 12⟩ "20261012_000000" =
      .ok (successOut "20261012_000000" oneRecordEnriched []) ∧
    (successOut "20261012_000000" oneRecordEnriched []).artifacts =
      [(mkFilename "20261012_000000", pyDumpsIndent2 (listToArr oneRecordEnriched))] ∧
    (successOut "20261012_000000" oneRecordEnriched []).hashedString =
      some (pyDumps (listToArr oneRecordEnriched)) ∧
    pyDumpsIndent2 (listToArr oneRecordEnriched) ≠ pyDumps (listToArr oneRecordEnriched) := by
  refine ⟨rfl, rfl, rfl, ?_⟩
  decide
